import Mathlib

/-!
Verification of the Security Decision Subsystem of the `security-platform`
repository: a shallow embedding, in Lean 4, of its four algorithmic units

  * the ABAC policy evaluator            (`src/lib/types/security.ts`),
  * the pattern detector                 (`security-logger`, `SecurityLogger`),
  * the rate limiter / IP-blocklist gate (`src/lib/middleware/security-middleware.ts`),
  * the TOTP generator / verifier        (`src/lib/crypto/totp.ts`),

followed by theorems settling the specification claims about them.

Conventions of the embedding:

  * JavaScript numbers that hold integer values (timestamps in milliseconds,
    counters, time steps) are modelled as `Int` or `Nat`; the 32-bit wrapping
    of JavaScript bitwise operators is made explicit with `% 2^32`.
  * JavaScript `undefined` / optional object fields become `Option`.
  * The dynamically typed attribute bags of policies and contexts become the
    inductive `AttrValue`; `===` on primitives is structural equality, and
    `===` on two distinct objects (arrays, `Date`s, nested objects) is
    reference equality, hence `false` for a policy literal compared with a
    context object.
  * String helpers (`split`, `includes`, `toUpperCase`, ...) are re-implemented
    over `List Char` by structural recursion so that every definition
    evaluates inside the kernel.
-/

/-! ## JavaScript string helpers -/

/-- Model of `str.split(sep)` for a one-character separator: splits the
character list at every occurrence of `c`, keeping empty fragments, as
JavaScript `String.prototype.split` does. -/
def splitCharList (c : Char) : List Char → List (List Char)
  | [] => [[]]
  | x :: xs =>
    match splitCharList c xs with
    | [] => [[x]]
    | g :: gs => if x = c then [] :: g :: gs else (x :: g) :: gs

/-- Model of `str.split(sep)` producing strings. -/
def jsSplit (s : String) (c : Char) : List String :=
  (splitCharList c s.data).map (fun l => String.mk l)

/-- Model of `str.includes(c)` for a single character. -/
def jsIncludesChar (s : String) (c : Char) : Bool :=
  s.data.contains c

/-- Model of `str.toUpperCase()` (ASCII, which is all the source feeds it). -/
def jsToUpper (s : String) : String :=
  String.mk (s.data.map Char.toUpper)

/-- Model of `str.toLowerCase()` (ASCII, which is all the source feeds it). -/
def jsToLower (s : String) : String :=
  String.mk (s.data.map Char.toLower)

/-- Decides whether `pat` occurs contiguously inside `l` starting at its
head. -/
def listStartsWith : List Char → List Char → Bool
  | [], _ => true
  | _ :: _, [] => false
  | p :: ps, x :: xs => p == x && listStartsWith ps xs

/-- Model of `str.includes(sub)`: `sub` occurs contiguously somewhere in the
receiver. -/
def jsIncludes (s sub : String) : Bool :=
  go s.data
where
  /-- Scan every suffix for a prefix match. -/
  go : List Char → Bool
    | [] => listStartsWith sub.data []
    | x :: xs => listStartsWith sub.data (x :: xs) || go xs

/-- Local hour of a millisecond timestamp, as `Date.prototype.getHours`
computes it; the model pins the process time zone to UTC. -/
def jsGetHours (ms : Int) : Int :=
  (ms.fdiv 3600000).emod 24

/-- Local day-of-week of a millisecond timestamp (0 = Sunday), as
`Date.prototype.getDay`; the Unix epoch fell on a Thursday (= 4). -/
def jsGetDay (ms : Int) : Int :=
  (ms.fdiv 86400000 + 4).emod 7

/-! ## ABAC data model (`src/lib/types/security.ts`) -/

/-- Embedding of the `Permission` interface. -/
structure Permission where
  resource : String
  action : String
  scope : String
deriving DecidableEq, Repr

/-- Runtime values stored in the string-keyed attribute bags of policies and
decision contexts (`Record<string, any>` in the source). `timeCond` stands
for the `{ businessHours: ... }` objects accepted under the `time` key,
`date` for JavaScript `Date` objects, `perms` for the `Permission[]` array
exposed by `getUserAttributes`. -/
inductive AttrValue where
  | str (s : String)
  | bool (b : Bool)
  | num (n : Int)
  | strList (vs : List String)
  | timeCond (businessHours : Bool)
  | date (ms : Int)
  | perms (ps : List Permission)
deriving DecidableEq, Repr

/-- JavaScript `===` between a policy literal and an (optional) context
value. Primitives compare structurally; `undefined` equals nothing; two
objects (arrays, `Date`s, condition objects) coming from the policy store
and the live context are distinct references, so they are never `===`. -/
def jsStrictEq (policyValue : AttrValue) (contextValue : Option AttrValue) : Bool :=
  match contextValue with
  | none => false
  | some c =>
    match policyValue, c with
    | .str a, .str b => a == b
    | .bool a, .bool b => a == b
    | .num a, .num b => a == b
    | _, _ => false

/-- Predicate for JavaScript `typeof v === "object"`: arrays, `Date`s and
plain objects, but not strings, booleans or numbers. -/
def isJsObject : AttrValue → Bool
  | .strList _ => true
  | .timeCond _ => true
  | .date _ => true
  | .perms _ => true
  | _ => false

/-- Embedding of the `User` interface (the fields the evaluator reads). -/
structure User where
  id : String
  email : String
  name : String
  role : String
  permissions : List Permission
  mfaEnabled : Bool
deriving DecidableEq, Repr

/-- Embedding of `PolicyContext.resource`. -/
structure ResourceDescriptor where
  type : String
  id : Option String
  owner : Option String
  department : Option String
  classification : Option String
deriving DecidableEq, Repr

/-- Embedding of `PolicyContext.environment`; `time` is the millisecond
timestamp of the `Date` object. -/
structure EnvironmentContext where
  time : Int
  ipAddress : Option String
  userAgent : Option String
  location : Option String
  mfaVerified : Option Bool
deriving DecidableEq, Repr

/-- Embedding of the `PolicyContext` interface. -/
structure PolicyContext where
  user : User
  resource : ResourceDescriptor
  action : String
  environment : EnvironmentContext
deriving DecidableEq, Repr

/-- Policy effect, the `"allow" | "deny"` union; also the type of the final
decision. -/
inductive Effect where
  | allow
  | deny
deriving DecidableEq, Repr

/-- Embedding of the `ABACPolicy` interface. The `subject`, `resource` and
`environment` matchers are association lists, preserving the key order of
the object literals. -/
structure ABACPolicy where
  id : String
  name : String
  description : String
  subject : List (String × AttrValue)
  resource : List (String × AttrValue)
  action : String
  environment : List (String × AttrValue)
  effect : Effect
  priority : Int
deriving DecidableEq, Repr

/-- Embedding of the `PolicyEvaluationResult` interface. -/
structure PolicyEvaluationResult where
  decision : Effect
  matchedPolicies : List ABACPolicy
  reason : String
deriving DecidableEq, Repr

/-! ## ABAC policy engine (`ABACPolicyEngine`) -/

/-- Attribute lookup for `ResourceDescriptor`, modelling the dynamic
`contextAttrs[key]` access. -/
def resourceAttrs (r : ResourceDescriptor) : String → Option AttrValue :=
  fun k =>
    if k == "type" then some (.str r.type)
    else if k == "id" then r.id.map .str
    else if k == "owner" then r.owner.map .str
    else if k == "department" then r.department.map .str
    else if k == "classification" then r.classification.map .str
    else none

/-- Attribute lookup for `EnvironmentContext`. -/
def environmentAttrs (e : EnvironmentContext) : String → Option AttrValue :=
  fun k =>
    if k == "time" then some (.date e.time)
    else if k == "ipAddress" then e.ipAddress.map .str
    else if k == "userAgent" then e.userAgent.map .str
    else if k == "location" then e.location.map .str
    else if k == "mfaVerified" then e.mfaVerified.map .bool
    else none

/-- Embedding of `ABACPolicyEngine.extractDepartmentFromEmail`. -/
def ABACPolicyEngine.extractDepartmentFromEmail (email : String) : String :=
  match (jsSplit email '@').get? 1 with
  | some domain =>
    if domain == "security.com" then "security"
    else if domain == "admin.com" then "admin"
    else "general"
  | none => "general"

/-- Embedding of `ABACPolicyEngine.getUserAttributes`. -/
def ABACPolicyEngine.getUserAttributes (user : User) : String → Option AttrValue :=
  fun k =>
    if k == "id" then some (.str user.id)
    else if k == "email" then some (.str user.email)
    else if k == "role" then some (.str user.role)
    else if k == "permissions" then some (.perms user.permissions)
    else if k == "mfaEnabled" then some (.bool user.mfaEnabled)
    else if k == "department" then
      some (.str (ABACPolicyEngine.extractDepartmentFromEmail user.email))
    else none

/-- Check of one declared key of `ABACPolicyEngine.matchesAttributes` (one
pass of its `for` loop): `"*"` matches anything, a string containing `|` is
an OR of alternatives, an array matches by membership, anything else by
strict equality. -/
def ABACPolicyEngine.matchesAttributeEntry
    (contextAttrs : String → Option AttrValue) (kv : String × AttrValue) : Bool :=
  let value := kv.2
  if value == .str "*" then true
  else
    let contextValue := contextAttrs kv.1
    match value with
    | .str s =>
      if jsIncludesChar s '|' then
        match contextValue with
        | some (.str cs) => (jsSplit s '|').contains cs
        | _ => false
      else jsStrictEq value contextValue
    | .strList vs =>
      match contextValue with
      | some (.str cs) => vs.contains cs
      | _ => false
    | _ => jsStrictEq value contextValue

/-- Embedding of `ABACPolicyEngine.matchesAttributes`: conjunction of
`matchesAttributeEntry` over the policy's declared keys. -/
def ABACPolicyEngine.matchesAttributes
    (policyAttrs : List (String × AttrValue))
    (contextAttrs : String → Option AttrValue) : Bool :=
  policyAttrs.all (ABACPolicyEngine.matchesAttributeEntry contextAttrs)

/-- Embedding of `ABACPolicyEngine.matchesAction`. -/
def ABACPolicyEngine.matchesAction (policyAction contextAction : String) : Bool :=
  if policyAction == "*" then true
  else if jsIncludesChar policyAction '|' then
    (jsSplit policyAction '|').contains contextAction
  else policyAction == contextAction

/-- Embedding of `ABACPolicyEngine.matchesTimeCondition`. When the condition
object carries a truthy `businessHours` flag the check passes exactly on
Monday–Friday with local hour in `[9, 17)`; otherwise it passes always. The
source would throw on an absent context time; the branch is unreachable in
the embedding because `EnvironmentContext.time` is mandatory, mirroring the
mandatory `time` field of `PolicyContext`. -/
def ABACPolicyEngine.matchesTimeCondition
    (timeCondition : AttrValue) (currentTime : Option AttrValue) : Bool :=
  let businessHours :=
    match timeCondition with
    | .timeCond b => b
    | _ => false
  if businessHours then
    match currentTime with
    | some (.date ms) =>
      decide (1 ≤ jsGetDay ms) && decide (jsGetDay ms ≤ 5) &&
        decide (9 ≤ jsGetHours ms) && decide (jsGetHours ms < 17)
    | _ => false
  else true

/-- Items of the regular expression obtained from an IP pattern by
`pattern.replace(/\*/g, ".*")`: a glob `*` compiles to `.*`, a literal `.`
of the pattern is the (unescaped) regex wildcard, every other character
matches itself. -/
inductive RegexItem where
  | star
  | anyChar
  | lit (c : Char)
deriving DecidableEq, Repr

/-- Compile an IP pattern to the item list of its derived regular
expression. -/
def compileIPPattern (pattern : String) : List RegexItem :=
  pattern.data.map fun c =>
    if c = '*' then .star
    else if c = '.' then .anyChar
    else .lit c

/-- Matching of a compiled pattern against a character list, anchored at the
start of the list, with an explicit recursion-depth bound so that the
definition is structurally recursive (every recursive call shrinks
`items.length + s.length`, so any fuel at least that sum is enough and the
`0` case is unreachable). -/
def regexMatchFuel : Nat → List RegexItem → List Char → Bool
  | _, [], _ => true
  | 0, _ :: _, _ => false
  | fuel + 1, .star :: items, s =>
    regexMatchFuel fuel items s ||
      (match s with
       | [] => false
       | _ :: rest => regexMatchFuel fuel (.star :: items) rest)
  | fuel + 1, .anyChar :: items, s =>
    (match s with
     | [] => false
     | _ :: rest => regexMatchFuel fuel items rest)
  | fuel + 1, .lit c :: items, s =>
    (match s with
     | [] => false
     | x :: rest => c == x && regexMatchFuel fuel items rest)

/-- Matching of a compiled pattern anchored at the start of the list. -/
def regexMatchHere (items : List RegexItem) (s : List Char) : Bool :=
  regexMatchFuel (items.length + s.length) items s

/-- Model of `RegExp.prototype.test`: unanchored search, trying every start
position. -/
def regexTest (items : List RegexItem) : List Char → Bool
  | [] => regexMatchHere items []
  | x :: xs => regexMatchHere items (x :: xs) || regexTest items xs

/-- Embedding of `ABACPolicyEngine.matchesIPPattern`. A falsy context IP
(absent, or the empty string) never matches; a pattern containing `*` is
compiled to a regex and searched in the IP; otherwise strict equality. The
context value reaches this method untyped, so a non-string value is also
treated as falsy. -/
def ABACPolicyEngine.matchesIPPattern
    (pattern : String) (ip : Option AttrValue) : Bool :=
  match ip with
  | some (.str s) =>
    if s == "" then false
    else if jsIncludesChar pattern '*' then regexTest (compileIPPattern pattern) s.data
    else pattern == s
  | _ => false

/-- Check of one declared key of `ABACPolicyEngine.matchesEnvironment` (one
pass of its `for` loop). Unlike `matchesAttributes` there is no wildcard or
OR handling here: only the two specialised keys `time` (with an object
value) and `ipAddress` (with a string value) get special treatment,
everything else is strict equality. -/
def ABACPolicyEngine.matchesEnvironmentEntry
    (contextEnv : String → Option AttrValue) (kv : String × AttrValue) : Bool :=
  let key := kv.1
  let value := kv.2
  let contextValue := contextEnv key
  if key == "time" && isJsObject value then
    ABACPolicyEngine.matchesTimeCondition value (contextEnv "time")
  else if key == "ipAddress" && (match value with | .str _ => true | _ => false) then
    (match value with
     | .str pat => ABACPolicyEngine.matchesIPPattern pat contextValue
     | _ => false)
  else jsStrictEq value contextValue

/-- Embedding of `ABACPolicyEngine.matchesEnvironment`: conjunction of
`matchesEnvironmentEntry` over the policy's declared keys. -/
def ABACPolicyEngine.matchesEnvironment
    (policyEnv : List (String × AttrValue))
    (contextEnv : String → Option AttrValue) : Bool :=
  policyEnv.all (ABACPolicyEngine.matchesEnvironmentEntry contextEnv)

/-- Embedding of `ABACPolicyEngine.matchesPolicy`: the conjunction of the
four matchers. -/
def ABACPolicyEngine.matchesPolicy (policy : ABACPolicy) (context : PolicyContext) : Bool :=
  ABACPolicyEngine.matchesAttributes policy.subject
      (ABACPolicyEngine.getUserAttributes context.user) &&
    ABACPolicyEngine.matchesAttributes policy.resource (resourceAttrs context.resource) &&
    ABACPolicyEngine.matchesAction policy.action context.action &&
    ABACPolicyEngine.matchesEnvironment policy.environment
      (environmentAttrs context.environment)

/-- Stable insertion into a list sorted by strictly descending priority: the
new policy goes after every element of priority `≥` its own, matching the
stable `sort((a, b) => b.priority - a.priority)` of the source. -/
def insertByPriority (p : ABACPolicy) : List ABACPolicy → List ABACPolicy
  | [] => [p]
  | q :: qs => if q.priority < p.priority then p :: q :: qs else q :: insertByPriority p qs

/-- Embedding of the sort maintained by the `ABACPolicyEngine` constructor
and mutators: descending priority, ties kept in insertion order. -/
def sortPolicies (policies : List ABACPolicy) : List ABACPolicy :=
  policies.foldl (fun acc p => insertByPriority p acc) []

/-- Loop body of `ABACPolicyEngine.evaluate`, with the mutable locals
`matchedPolicies`, `finalDecision` and `reason` made explicit. A matching
deny breaks out immediately; a matching allow is recorded only when
`finalDecision` differs from `deny`. -/
def ABACPolicyEngine.evaluateAux (context : PolicyContext) :
    List ABACPolicy → List ABACPolicy → Effect → String → PolicyEvaluationResult
  | [], matched, finalDecision, reason => ⟨finalDecision, matched, reason⟩
  | policy :: rest, matched, finalDecision, reason =>
    if ABACPolicyEngine.matchesPolicy policy context then
      let matched := matched ++ [policy]
      if policy.effect = .deny then
        ⟨.deny, matched, "Denied by policy: " ++ policy.name⟩
      else if policy.effect = .allow ∧ finalDecision ≠ .deny then
        ABACPolicyEngine.evaluateAux context rest matched .allow
          ("Allowed by policy: " ++ policy.name)
      else
        ABACPolicyEngine.evaluateAux context rest matched finalDecision reason
    else
      ABACPolicyEngine.evaluateAux context rest matched finalDecision reason

/-- Embedding of `ABACPolicyEngine.evaluate` on the engine's policy list
(sorted on construction); `finalDecision` starts at `deny` ("Default deny")
and `reason` at "No matching policies found". -/
def ABACPolicyEngine.evaluate (policies : List ABACPolicy) (context : PolicyContext) :
    PolicyEvaluationResult :=
  ABACPolicyEngine.evaluateAux context (sortPolicies policies) [] .deny
    "No matching policies found"

/-! ## Default policies and `checkPermission` -/

/-- Embedding of the `defaultPolicies` constant. -/
def defaultPolicies : List ABACPolicy :=
  [ { id := "admin-full-access"
      name := "Admin Full Access"
      description := "Administrators have full access to all resources"
      subject := [("role", .str "admin")]
      resource := [("type", .str "*")]
      action := "*"
      environment := []
      effect := .allow
      priority := 100 },
    { id := "user-own-data"
      name := "User Own Data Access"
      description := "Users can read and write their own data"
      subject := [("role", .str "user")]
      resource := [("type", .str "user-data")]
      action := "read|write"
      environment := []
      effect := .allow
      priority := 50 },
    { id := "mfa-required-sensitive"
      name := "MFA Required for Sensitive Operations"
      description := "MFA verification required for sensitive operations"
      subject := []
      resource := [("classification", .str "confidential|secret")]
      action := "write|delete"
      environment := [("mfaVerified", .bool false)]
      effect := .deny
      priority := 90 },
    { id := "business-hours-only"
      name := "Business Hours Access Only"
      description := "Sensitive operations only during business hours"
      subject := [("role", .str "user")]
      resource := [("classification", .str "confidential")]
      action := "write|delete"
      environment := []
      effect := .deny
      priority := 70 },
    { id := "block-suspicious-ip"
      name := "Block Suspicious IP Addresses"
      description := "Block access from known suspicious IP ranges"
      subject := []
      resource := [("type", .str "*")]
      action := "*"
      environment := []
      effect := .deny
      priority := 95 } ]

/-- The optional `environment` argument of `checkPermission`. -/
structure CheckEnvironment where
  ipAddress : Option String
  userAgent : Option String
  mfaVerified : Option Bool
deriving DecidableEq, Repr

/-- Resource argument of `checkPermission` (it has no `department` field). -/
structure CheckResource where
  type : String
  id : Option String
  owner : Option String
  classification : Option String
deriving DecidableEq, Repr

/-- The `PolicyContext` built by `checkPermission`: `time` is the current
time, `mfaVerified` defaults to `user.mfaEnabled`, and the spread of the
caller's `environment` overrides the defaults key by key. -/
def checkPermissionContext (user : User) (resource : CheckResource) (action : String)
    (environment : CheckEnvironment) (now : Int) : PolicyContext :=
  { user := user
    resource :=
      { type := resource.type
        id := resource.id
        owner := resource.owner
        department := none
        classification := resource.classification }
    action := action
    environment :=
      { time := now
        ipAddress := environment.ipAddress
        userAgent := environment.userAgent
        location := none
        mfaVerified := some (environment.mfaVerified.getD user.mfaEnabled) } }

/-- Embedding of the `checkPermission` utility, which evaluates against the
global engine holding `defaultPolicies`. -/
def checkPermission (user : User) (resource : CheckResource) (action : String)
    (environment : CheckEnvironment) (now : Int) : PolicyEvaluationResult :=
  ABACPolicyEngine.evaluate defaultPolicies
    (checkPermissionContext user resource action environment now)

/-! ## Rate limiter / IP-blocklist gate (`src/lib/middleware/security-middleware.ts`) -/

/-- Embedding of the `SecurityMiddlewareConfig` interface;
`rateLimitWindow` is in minutes. -/
structure SecurityMiddlewareConfig where
  enableLogging : Bool
  enableRateLimit : Bool
  enableIPBlocking : Bool
  rateLimitRequests : Nat
  rateLimitWindow : Nat
  blockedIPs : List String
  trustedIPs : List String
deriving Repr

/-- Embedding of the module's `defaultConfig` constant. -/
def defaultConfig : SecurityMiddlewareConfig :=
  { enableLogging := true
    enableRateLimit := true
    enableIPBlocking := true
    rateLimitRequests := 100
    rateLimitWindow := 15
    blockedIPs := []
    trustedIPs := ["127.0.0.1", "::1"] }

/-- One value of the module-level `rateLimitStore` map. -/
structure RateLimitEntry where
  count : Nat
  resetTime : Nat
deriving DecidableEq, Repr

/-- The `rateLimitStore` map, keyed by the `"ip:bucket"` strings of the
source, modelled as the pair (ip, bucket index). -/
def RateLimitStore : Type := String × Nat → Option RateLimitEntry

/-- The store update performed by `rateLimitStore.set(key, current)`. -/
def RateLimitStore.set (store : RateLimitStore) (key : String × Nat)
    (entry : RateLimitEntry) : RateLimitStore :=
  fun k => if k = key then some entry else store k

/-- Outcome of one pass through the security middleware: `blocked` is the
403 "Access Denied" response, `rateLimited` the 429 response carrying its
`Retry-After` header in seconds, `admitted` the fall-through to
`NextResponse.next()`. -/
inductive AdmissionOutcome where
  | admitted
  | rateLimited (retryAfter : Int)
  | blocked
deriving DecidableEq, Repr

/-- Ceiling division as computed by `Math.ceil((a : ms) / 1000)` on an exact
integer argument. -/
def jsCeilDiv (a : Int) (b : Int) : Int :=
  -((-a).fdiv b)

/-- Embedding of the admission-control part of `securityMiddleware`: the
block check (dynamic `blockedIPs` set, then the configured static list)
runs first and short-circuits with 403; then, for a non-trusted IP with
rate limiting enabled, the per-`(ip, window bucket)` counter is incremented
and compared against the ceiling. Event logging and the suspicious-pattern
scan that follow do not affect the outcome and carry no admission state, so
they are not part of this model. `now` is `Date.now()` in milliseconds. -/
def securityMiddleware (config : SecurityMiddlewareConfig)
    (dynamicBlockedIPs : List String) (store : RateLimitStore)
    (ip : String) (now : Nat) : AdmissionOutcome × RateLimitStore :=
  if config.enableIPBlocking &&
      (dynamicBlockedIPs.contains ip || config.blockedIPs.contains ip) then
    (.blocked, store)
  else if config.enableRateLimit && !config.trustedIPs.contains ip then
    let windowMs := config.rateLimitWindow * 60 * 1000
    let rateLimitKey := (ip, now / windowMs)
    let current := (store rateLimitKey).getD { count := 0, resetTime := now + windowMs }
    let current := { current with count := current.count + 1 }
    let store := store.set rateLimitKey current
    if current.count > config.rateLimitRequests then
      (.rateLimited (jsCeilDiv ((current.resetTime : Int) - (now : Int)) 1000), store)
    else
      (.admitted, store)
  else
    (.admitted, store)

/-- Sequential admissions of one source identity at the given sequence of
request times, threading the rate-limit store. -/
def runAdmissions (config : SecurityMiddlewareConfig) (dynamicBlockedIPs : List String)
    (ip : String) : List Nat → RateLimitStore → List AdmissionOutcome × RateLimitStore
  | [], store => ([], store)
  | t :: ts, store =>
    let step := securityMiddleware config dynamicBlockedIPs store ip t
    let rest := runAdmissions config dynamicBlockedIPs ip ts step.2
    (step.1 :: rest.1, rest.2)

/-! ## Pattern detector (`SecurityLogger`, `security-logger`) -/

/-- Embedding of the logger's `SecurityEvent` interface; `detailsReason`
models the one `details` key the detector reads (`details.reason`). -/
structure LoggedEvent where
  event_type : String
  severity : String
  user_id : Option String
  ip_address : Option String
  user_agent : Option String
  resource : Option String
  action : Option String
  detailsReason : Option String
  timestamp : Int
deriving DecidableEq, Repr

/-- Embedding of the `SecurityPattern` interface. -/
structure SecurityPattern where
  pattern : String
  description : String
  threshold : Nat
  timeWindow : Nat
  severity : String
  actions : List String
deriving DecidableEq, Repr

/-- Embedding of the `SecurityLogger.patterns` table. -/
def securityPatterns : List SecurityPattern :=
  [ { pattern := "failed_login_burst"
      description := "Multiple failed login attempts from same IP"
      threshold := 5
      timeWindow := 10
      severity := "high"
      actions := ["block_ip", "notify_admin", "increase_monitoring"] },
    { pattern := "privilege_escalation"
      description := "Attempts to access restricted resources"
      threshold := 3
      timeWindow := 5
      severity := "critical"
      actions := ["block_user", "notify_admin", "audit_permissions"] },
    { pattern := "suspicious_user_agent"
      description := "Automated tools or suspicious user agents detected"
      threshold := 10
      timeWindow := 30
      severity := "medium"
      actions := ["increase_monitoring", "require_captcha"] },
    { pattern := "rapid_requests"
      description := "Unusually high request rate from single source"
      threshold := 100
      timeWindow := 5
      severity := "high"
      actions := ["rate_limit", "block_ip", "notify_admin"] },
    { pattern := "off_hours_access"
      description := "Access attempts outside business hours"
      threshold := 1
      timeWindow := 60
      severity := "medium"
      actions := ["require_mfa", "notify_admin"] } ]

/-- The `off_hours_access` entry of the table. -/
def offHoursAccessPattern : SecurityPattern := securityPatterns[4]

/-- The `failed_login_burst` entry of the table. -/
def failedLoginBurstPattern : SecurityPattern := securityPatterns[0]

/-- Truthiness of an optional string, as tested by `if (event.ip_address)`:
absent and empty strings are falsy. -/
def jsTruthyStr : Option String → Bool
  | none => false
  | some s => s != ""

/-- Response of `GET /api/security/events` as consumed by `checkPattern`:
the route returns the most recent events, filtered by `event_type` when a
`type` query parameter is passed. The event store behind the route is the
external Event Log collaborator, so it enters the model as the function
argument `fetchEvents` from the optional type filter to the returned
list. -/
def eventStoreFetch (events : List LoggedEvent) : Option String → List LoggedEvent :=
  fun filter =>
    match filter with
    | some ty => events.filter fun e => e.event_type == ty
    | none => events

/-- Embedding of `SecurityLogger.checkPattern`. Each count-over-window
pattern re-queries the event store and counts the events correlated with
the incoming one (same IP or same user) inside `[now - timeWindow, now]`;
`off_hours_access` instead fires on the single incoming event when it is a
`successful_login` with local hour `< 8` or `> 18`. Every other pattern
name returns `false`. -/
def checkPattern (pattern : SecurityPattern) (event : LoggedEvent)
    (fetchEvents : Option String → List LoggedEvent) (now : Int) : Bool :=
  let timeWindow : Int := now - (pattern.timeWindow : Int) * 60 * 1000
  if pattern.pattern == "failed_login_burst" then
    if event.event_type == "failed_login" && jsTruthyStr event.ip_address then
      let recentFailures := fetchEvents (some "failed_login")
      let ipFailures := recentFailures.filter fun e =>
        e.ip_address == event.ip_address && timeWindow < e.timestamp
      pattern.threshold ≤ ipFailures.length
    else false
  else if pattern.pattern == "privilege_escalation" then
    if event.event_type == "access_denied" &&
        event.detailsReason == some "insufficient_permissions" then
      let recentAttempts := fetchEvents none
      let escalationAttempts := recentAttempts.filter fun e =>
        e.user_id == event.user_id && e.event_type == "access_denied" &&
          timeWindow < e.timestamp
      pattern.threshold ≤ escalationAttempts.length
    else false
  else if pattern.pattern == "suspicious_user_agent" then
    if jsTruthyStr event.user_agent then
      let suspiciousAgents := ["curl", "wget", "python", "bot", "crawler", "scanner"]
      let isSuspicious := suspiciousAgents.any fun agent =>
        match event.user_agent with
        | some ua => jsIncludes (jsToLower ua) agent
        | none => false
      if isSuspicious then
        let recentEvents := fetchEvents none
        let suspiciousEvents := recentEvents.filter fun e =>
          e.ip_address == event.ip_address && timeWindow < e.timestamp
        pattern.threshold ≤ suspiciousEvents.length
      else false
    else false
  else if pattern.pattern == "rapid_requests" then
    if jsTruthyStr event.ip_address then
      let recentEvents := fetchEvents none
      let ipEvents := recentEvents.filter fun e =>
        e.ip_address == event.ip_address && timeWindow < e.timestamp
      pattern.threshold ≤ ipEvents.length
    else false
  else if pattern.pattern == "off_hours_access" then
    let hour := jsGetHours event.timestamp
    let isOffHours := decide (hour < 8) || decide (18 < hour)
    if isOffHours && event.event_type == "successful_login" then true else false
  else false

/-- Embedding of `SecurityLogger.blockIP`, the handler of the `block_ip`
alert action. The source only logs an `ip_blocked` security event ("
Implementation would add IP to blocklist"); it never touches the
`blockedIPs` set owned by the security middleware, so the middleware
blocklist passes through unchanged. The returned event is the one it
logs. -/
def securityLoggerBlockIP (ip : String)
    (middlewareBlockedIPs : List String) : List String × LoggedEvent :=
  (middlewareBlockedIPs,
    { event_type := "ip_blocked"
      severity := "medium"
      user_id := none
      ip_address := some ip
      user_agent := none
      resource := some "security"
      action := some "block_ip"
      detailsReason := some "security_alert"
      timestamp := 0 })

/-! ## TOTP generator and verifier (`src/lib/crypto/totp.ts`)

The source delegates HMAC-SHA1 to WebCrypto (`crypto.subtle`); the embedding
carries a full executable SHA-1 (FIPS 180-4) and HMAC (FIPS 198-1) over byte
lists, with 32-bit words as `Nat` values kept below `2^32`. -/

/-- Reduction to a 32-bit word. -/
def w32 (n : Nat) : Nat := n % 4294967296

/-- Left rotation of a 32-bit word by `b` bits. -/
def rotl32 (b n : Nat) : Nat :=
  w32 ((n <<< b) ||| (n >>> (32 - b)))

/-- Big-endian 4-byte serialisation of a 32-bit word. -/
def be4 (n : Nat) : List Nat :=
  [(n >>> 24) &&& 255, (n >>> 16) &&& 255, (n >>> 8) &&& 255, n &&& 255]

/-- Big-endian 8-byte serialisation of a length field. -/
def be8 (n : Nat) : List Nat :=
  [(n >>> 56) &&& 255, (n >>> 48) &&& 255, (n >>> 40) &&& 255, (n >>> 32) &&& 255,
    (n >>> 24) &&& 255, (n >>> 16) &&& 255, (n >>> 8) &&& 255, n &&& 255]

/-- Big-endian packing of a byte list into 32-bit words. -/
def bytesToWords : List Nat → List Nat
  | b0 :: b1 :: b2 :: b3 :: rest =>
    (((b0 <<< 24) ||| (b1 <<< 16)) ||| ((b2 <<< 8) ||| b3)) :: bytesToWords rest
  | _ => []

/-- Message-schedule extension: append `W[t] = rotl1(W[t-3] ⊕ W[t-8] ⊕
W[t-14] ⊕ W[t-16])` the given number of times. -/
def sha1Extend : Nat → List Nat → List Nat
  | 0, ws => ws
  | k + 1, ws =>
    let n := ws.length
    let w := rotl32 1 ((ws.getD (n - 3) 0) ^^^ (ws.getD (n - 8) 0) ^^^
      (ws.getD (n - 14) 0) ^^^ (ws.getD (n - 16) 0))
    sha1Extend k (ws ++ [w])

/-- Round function `f_t` of SHA-1. -/
def sha1F (t b c d : Nat) : Nat :=
  if t < 20 then (b &&& c) ||| ((4294967295 ^^^ b) &&& d)
  else if t < 40 then b ^^^ c ^^^ d
  else if t < 60 then (b &&& c) ||| (b &&& d) ||| (c &&& d)
  else b ^^^ c ^^^ d

/-- Round constant `K_t` of SHA-1. -/
def sha1K (t : Nat) : Nat :=
  if t < 20 then 0x5A827999
  else if t < 40 then 0x6ED9EBA1
  else if t < 60 then 0x8F1BBCDC
  else 0xCA62C1D6

/-- One SHA-1 round on the working state `(a, b, c, d, e)`. -/
def sha1Round (t w : Nat) (st : Nat × Nat × Nat × Nat × Nat) :
    Nat × Nat × Nat × Nat × Nat :=
  let (a, b, c, d, e) := st
  let temp := w32 (rotl32 5 a + sha1F t b c d + e + sha1K t + w)
  (temp, a, rotl32 30 b, c, d)

/-- Compression of one 64-byte chunk into the running hash `(h0, ..., h4)`. -/
def sha1Compress (h : Nat × Nat × Nat × Nat × Nat) (chunk : List Nat) :
    Nat × Nat × Nat × Nat × Nat :=
  let ws := sha1Extend 64 (bytesToWords chunk)
  let (h0, h1, h2, h3, h4) := h
  let (a, b, c, d, e) := ws.enum.foldl (fun st tw => sha1Round tw.1 tw.2 st) h
  (w32 (h0 + a), w32 (h1 + b), w32 (h2 + c), w32 (h3 + d), w32 (h4 + e))

/-- Split a byte list into 64-byte chunks; the fuel argument bounds the
number of chunks (each step drops 64 bytes of a non-empty list, so
`bs.length` chunks are more than enough and the `0` case is
unreachable). -/
def sha1ChunksFuel : Nat → List Nat → List (List Nat)
  | _, [] => []
  | 0, _ :: _ => []
  | fuel + 1, b :: rest => (b :: rest).take 64 :: sha1ChunksFuel fuel ((b :: rest).drop 64)

/-- Split a byte list into 64-byte chunks. -/
def sha1Chunks (bs : List Nat) : List (List Nat) :=
  sha1ChunksFuel bs.length bs

/-- SHA-1 of a byte list (FIPS 180-4): pad with `0x80`, zeros and the 64-bit
big-endian bit length to a multiple of 64 bytes, then compress each chunk. -/
def sha1 (msg : List Nat) : List Nat :=
  let padded := msg ++ [0x80] ++ List.replicate ((119 - msg.length % 64) % 64) 0 ++
    be8 (8 * msg.length)
  let (h0, h1, h2, h3, h4) := (sha1Chunks padded).foldl sha1Compress
    (0x67452301, 0xEFCDAB89, 0x98BADCFE, 0x10325476, 0xC3D2E1F0)
  be4 h0 ++ be4 h1 ++ be4 h2 ++ be4 h3 ++ be4 h4

/-- HMAC-SHA1 (FIPS 198-1), the function WebCrypto computes for
`crypto.subtle.sign("HMAC", ...)` with a SHA-1 key. -/
def hmacSha1 (key data : List Nat) : List Nat :=
  let key := if 64 < key.length then sha1 key else key
  let key := key ++ List.replicate (64 - key.length) 0
  let ipadKey := key.map fun b => b ^^^ 0x36
  let opadKey := key.map fun b => b ^^^ 0x5c
  sha1 (opadKey ++ sha1 (ipadKey ++ data))

/-- Alphabet of RFC 4648 Base32, the module's `BASE32_CHARS`. -/
def BASE32_CHARS : String := "ABCDEFGHIJKLMNOPQRSTUVWXYZ234567"

/-- Position of a character in a list (`String.prototype.indexOf` for a
character known to occur). -/
def charIndex (c : Char) : List Char → Nat
  | [] => 0
  | x :: xs => if x == c then 0 else 1 + charIndex c xs

/-- Embedding of `decodeBase32`: uppercase, drop every character outside the
alphabet (the regex `[^A-Z2-7]`), then shift five bits per character into a
buffer and emit a byte whenever eight bits are available. The `while` loop
of the source runs at most once per character because `bitsLeft` stays at
most 12; JavaScript `<<` wraps at 32 bits, made explicit here (the extracted
low bits are unaffected). Decoding never throws. -/
def decodeBase32 (encoded : String) : List Nat :=
  let clean := ((jsToUpper encoded).data.filter fun c => BASE32_CHARS.data.contains c)
  let step := fun (st : Nat × Nat × List Nat) (c : Char) =>
    let (buffer, bitsLeft, bytes) := st
    let buffer := w32 ((buffer <<< 5) ||| charIndex c BASE32_CHARS.data)
    let bitsLeft := bitsLeft + 5
    if 8 ≤ bitsLeft then
      (buffer, bitsLeft - 8, bytes ++ [(buffer >>> (bitsLeft - 8)) &&& 255])
    else (buffer, bitsLeft, bytes)
  (clean.foldl step (0, 0, [])).2.2

/-- Embedding of `intToBytes`: the low 8 bytes of the time step, big-endian.
JavaScript `&`/`>>>` coerce their operand to 32 bits, so the step is first
reduced modulo `2^32` (two's complement for negative steps); iterated
unsigned shifts then stay within `Nat`. -/
def intToBytesGo : Nat → Nat → List Nat
  | 0, _ => []
  | k + 1, n => intToBytesGo k (n >>> 8) ++ [n &&& 255]

/-- Embedding of `intToBytes` on the possibly negative step value. -/
def intToBytes (num : Int) : List Nat :=
  intToBytesGo 8 ((num.emod 4294967296).toNat)

/-- Embedding of `code.toString().padStart(6, "0")`. -/
def padStart6 (s : String) : String :=
  String.mk (List.replicate (6 - s.data.length) '0' ++ s.data)

/-- Embedding of `generateTOTP`. `timestamp` is in milliseconds; the
source's `timestamp || Date.now()` falls back to the current time both when
the argument is omitted and when it is `0`, since `0` is falsy — `now` is
that current time. The time step is `Math.floor(t / 1000 / 30)`, i.e. the
floor of the exact rational `t / 30000`. The dynamic truncation (RFC 4226
§5.3) takes the low 4 bits of the last HMAC byte as offset, 31 bits at that
offset, reduced modulo `10^6` and left-padded to 6 digits. -/
def generateTOTP (secret : String) (timestamp : Int) (now : Int) : String :=
  let time := (if timestamp = 0 then now else timestamp).fdiv 30000
  let key := decodeBase32 secret
  let timeBytes := intToBytes time
  let hmac := hmacSha1 key timeBytes
  let offset := (hmac.getD (hmac.length - 1) 0) &&& 15
  let code :=
    (((((hmac.getD offset 0) &&& 127) <<< 24) |||
      (((hmac.getD (offset + 1) 0) &&& 255) <<< 16)) |||
     ((((hmac.getD (offset + 2) 0) &&& 255) <<< 8) |||
      ((hmac.getD (offset + 3) 0) &&& 255))) % 1000000
  padStart6 (Nat.repr code)

/-- Embedding of `verifyTOTP`: scan the steps `now + i * 30000` for
`i = -window, ..., window` in order and accept on the first generated code
equal to the candidate. The verification time is always `Date.now()`,
modelled by `now`. -/
def verifyTOTP (secret token : String) (window : Nat) (now : Int) : Bool :=
  (List.range (2 * window + 1)).any fun j =>
    let testTime := now + ((j : Int) - (window : Int)) * 30000
    generateTOTP secret testTime now == token

/-! ## Concrete fixtures used by the claim theorems -/

/-- Sample user: an ordinary user without MFA. -/
def sampleUser : User :=
  { id := "u1", email := "alice@example.com", name := "Alice", role := "user",
    permissions := [], mfaEnabled := false }

/-- Sample decision context: `sampleUser` reading a document. -/
def sampleContext : PolicyContext :=
  { user := sampleUser
    resource := { type := "doc", id := none, owner := none, department := none,
                  classification := none }
    action := "read"
    environment := { time := 0, ipAddress := none, userAgent := none, location := none,
                     mfaVerified := none } }

/-- An allow policy with empty matchers and wildcard action: it matches every
context. -/
def allowAllPolicy : ABACPolicy :=
  { id := "allow-all", name := "Allow All", description := "matches every context",
    subject := [], resource := [], action := "*", environment := [],
    effect := .allow, priority := 100 }

/-- A policy whose subject matcher requires the admin role; it does not match
`sampleContext`. -/
def adminOnlyPolicy : ABACPolicy :=
  { id := "admin-only", name := "Admin Only", description := "admins only",
    subject := [("role", .str "admin")], resource := [], action := "*",
    environment := [], effect := .allow, priority := 10 }

/-- A policy whose environment matcher is the wildcard under `userAgent` and
whose other matchers accept everything. -/
def wildcardUAPolicy : ABACPolicy :=
  { id := "wildcard-ua", name := "Wildcard UA", description := "wildcard user agent",
    subject := [], resource := [], action := "*",
    environment := [("userAgent", .str "*")], effect := .allow, priority := 1 }

/-- The sample context with a present user agent. -/
def mozillaContext : PolicyContext :=
  { sampleContext with
    environment := { sampleContext.environment with userAgent := some "Mozilla" } }

/-- Environment with a present source IP. -/
def ipEnvironment : EnvironmentContext :=
  { time := 0, ipAddress := some "10.0.0.5", userAgent := none, location := none,
    mfaVerified := none }

/-- Environment with every optional field absent. -/
def bareEnvironment : EnvironmentContext :=
  { time := 0, ipAddress := none, userAgent := none, location := none,
    mfaVerified := none }

/-- The empty rate-limit store. -/
def emptyRateLimitStore : RateLimitStore := fun _ => none

/-- A `login_failed` event from IP 10.0.0.5 at the given timestamp, as the
login route records on a failed login. -/
def loginFailedEvent (t : Int) : LoggedEvent :=
  { event_type := "login_failed", severity := "medium", user_id := none,
    ip_address := some "10.0.0.5", user_agent := some "Mozilla", resource := none,
    action := none, detailsReason := some "invalid_password", timestamp := t }

/-- Five `login_failed` events from IP 10.0.0.5 inside nine minutes
(timestamps spread over `[0, 8.5 min]`). -/
def fiveLoginFailures : List LoggedEvent :=
  [loginFailedEvent 0, loginFailedEvent 120000, loginFailedEvent 240000,
    loginFailedEvent 360000, loginFailedEvent 510000]

/-- A `successful_login` event at 18:30 local time (timestamp hour 18). -/
def successfulLoginAt18 : LoggedEvent :=
  { event_type := "successful_login", severity := "low", user_id := some "u1",
    ip_address := some "10.0.0.5", user_agent := some "Mozilla", resource := none,
    action := none, detailsReason := none, timestamp := 66600000 }

/-- A `successful_login` event at 19:00 local time (timestamp hour 19). -/
def successfulLoginAt19 : LoggedEvent :=
  { successfulLoginAt18 with timestamp := 68400000 }

/-- The Base32 secret used by the concrete TOTP computations. -/
def totpSecret : String := "GEZDGNBVGY3TQOJQ"

/-! ## Helper lemmas about the ABAC engine -/

/-- With `finalDecision` already at `deny`, the allow branch of the
evaluation loop is unreachable, so the returned decision is `deny` whatever
the remaining policies are. -/
theorem evaluateAux_decision_deny (context : PolicyContext) :
    ∀ (l matched : List ABACPolicy) (reason : String),
      (ABACPolicyEngine.evaluateAux context l matched .deny reason).decision = .deny := by
  intro l
  induction l with
  | nil => intro matched reason; rfl
  | cons p rest ih =>
    intro matched reason
    simp only [ABACPolicyEngine.evaluateAux]
    split
    · split
      · rfl
      · split
        · next h => simp at h
        · exact ih _ _
    · exact ih _ _

/-- When no policy of the list matches, the loop returns its accumulators
unchanged. -/
theorem evaluateAux_of_no_match (context : PolicyContext) :
    ∀ (l matched : List ABACPolicy) (dec : Effect) (reason : String),
      (∀ p ∈ l, ABACPolicyEngine.matchesPolicy p context = false) →
      ABACPolicyEngine.evaluateAux context l matched dec reason = ⟨dec, matched, reason⟩ := by
  intro l
  induction l with
  | nil => intro matched dec reason _; rfl
  | cons p rest ih =>
    intro matched dec reason h
    have hp : ABACPolicyEngine.matchesPolicy p context = false := h p (by simp)
    simp only [ABACPolicyEngine.evaluateAux, hp]
    simp only [Bool.false_eq_true, if_false]
    exact ih _ _ _ (fun q hq => h q (by simp [hq]))

/-- Membership is preserved by the stable priority insertion. -/
theorem mem_insertByPriority (p q : ABACPolicy) :
    ∀ l : List ABACPolicy, q ∈ insertByPriority p l ↔ q = p ∨ q ∈ l := by
  intro l
  induction l with
  | nil => simp [insertByPriority]
  | cons x xs ih =>
    simp only [insertByPriority]
    split
    · simp
    · simp only [List.mem_cons, ih]
      tauto

/-- Membership is preserved by the priority sort. -/
theorem mem_sortPolicies (q : ABACPolicy) (l : List ABACPolicy) :
    q ∈ sortPolicies l ↔ q ∈ l := by
  have main : ∀ (l acc : List ABACPolicy),
      (q ∈ l.foldl (fun acc p => insertByPriority p acc) acc ↔ q ∈ acc ∨ q ∈ l) := by
    intro l
    induction l with
    | nil => simp
    | cons x xs ih =>
      intro acc
      simp only [List.foldl_cons, ih, mem_insertByPriority, List.mem_cons]
      tauto
  simpa using main l []

/-! ## Claim C1 -/

/-- Claim C1 (code bug): the claim states deny-overrides-with-allow
semantics, but `evaluate` initialises `finalDecision` to `deny` and only
switches to `allow` under the guard `finalDecision !== "deny"`, which is
false initially and can never become true, so the decision is `deny` for
every policy set and context; in particular a single matching allow policy
still yields `deny` (with the matched policy recorded and the reason left
at its initial value). -/
theorem abacEvaluateAlwaysDenies :
    (∀ (policies : List ABACPolicy) (context : PolicyContext),
        (ABACPolicyEngine.evaluate policies context).decision = .deny) ∧
      ABACPolicyEngine.evaluate [allowAllPolicy] sampleContext =
        ⟨.deny, [allowAllPolicy], "No matching policies found"⟩ := by
  constructor
  · intro policies context
    exact evaluateAux_decision_deny context _ _ _
  · decide

/-! ## Claim C8 -/

/-- Claim C8, counterexample: on an empty policy set the decision is `deny`
with an empty matched list, but the reason string is "No matching policies
found", not "no matching policies" as the claim words it. -/
theorem abacDefaultDenyReasonCounterexample :
    (ABACPolicyEngine.evaluate [] sampleContext).reason = "No matching policies found" ∧
      "No matching policies found" ≠ "no matching policies" := by
  exact ⟨rfl, by decide⟩

/-- Claim C8 as amended: for every context, evaluation against an empty
policy set, or against a policy set in which no policy matches the context,
yields decision `deny` with reason "No matching policies found" and an
empty matched-policies list. -/
theorem abacDefaultDeny :
    (∀ context : PolicyContext,
        ABACPolicyEngine.evaluate [] context =
          ⟨.deny, [], "No matching policies found"⟩) ∧
      ∀ (context : PolicyContext) (policies : List ABACPolicy),
        (∀ p ∈ policies, ABACPolicyEngine.matchesPolicy p context = false) →
        ABACPolicyEngine.evaluate policies context =
          ⟨.deny, [], "No matching policies found"⟩ := by
  constructor
  · intro context; rfl
  · intro context policies h
    exact evaluateAux_of_no_match context _ [] .deny _
      (fun p hp => h p ((mem_sortPolicies p policies).mp hp))

/-- Claim C8 witness: a concrete non-matching policy set (an admin-only
policy against an ordinary user's context) evaluates to the default deny
result. -/
theorem abacDefaultDenyWitness :
    ABACPolicyEngine.evaluate [adminOnlyPolicy] sampleContext =
      ⟨.deny, [], "No matching policies found"⟩ :=
  abacDefaultDeny.2 sampleContext [adminOnlyPolicy] (by decide)

/-! ## Claim C3 -/

/-- Claim C3, counterexample: a wildcard `"*"` under the `userAgent` key of
the environment matcher fails against a context whose user agent is
"Mozilla", and also against a context without a user agent, although the
other three matchers of the policy accept everything; the environment
matcher has no wildcard handling. -/
theorem wildcardEnvCounterexample :
    ABACPolicyEngine.matchesPolicy wildcardUAPolicy mozillaContext = false ∧
      ABACPolicyEngine.matchesPolicy wildcardUAPolicy sampleContext = false := by
  constructor <;> decide

/-- Fuel does not matter for an empty item list. -/
theorem regexMatchFuel_nil_items (fuel : Nat) (s : List Char) :
    regexMatchFuel fuel [] s = true := by
  cases fuel <;> rfl

/-- One step of the matcher on a lone `.*`. -/
theorem regexMatchFuel_succ_star (fuel : Nat) (s : List Char) :
    regexMatchFuel (fuel + 1) [RegexItem.star] s = true := by
  simp [regexMatchFuel, regexMatchFuel_nil_items]

/-- The regex compiled from the pattern `"*"` matches at any position. -/
theorem regexMatchHere_star (s : List Char) :
    regexMatchHere [RegexItem.star] s = true := by
  show regexMatchFuel ([RegexItem.star].length + s.length) [RegexItem.star] s = true
  have h : [RegexItem.star].length + s.length = s.length + 1 := by
    simp [Nat.add_comm]
  rw [h]
  exact regexMatchFuel_succ_star s.length s

/-- The regex compiled from the pattern `"*"` tests true on every string. -/
theorem regexTest_star (s : List Char) : regexTest [RegexItem.star] s = true := by
  cases s with
  | nil => exact regexMatchHere_star []
  | cons x xs => simp [regexTest, regexMatchHere_star]

/-- Compilation of the pattern `"*"`. -/
theorem compileIPPattern_star : compileIPPattern "*" = [RegexItem.star] := by decide

/-- Claim C3 as amended: a literal `"*"` policy value under any key of the
subject or resource matcher accepts every context (present or absent), and
`"*"` as the action matches every action; the environment matcher has no
wildcard handling: under `ipAddress` the pattern `"*"` matches any present,
non-empty context IP but fails when the IP is absent, and under any other
non-`time` key a `"*"` value must equal the context value literally. -/
theorem wildcardMatchingAmended :
    (∀ (key : String) (rest : List (String × AttrValue))
        (ctxAttrs : String → Option AttrValue),
        ABACPolicyEngine.matchesAttributes ((key, AttrValue.str "*") :: rest) ctxAttrs =
          ABACPolicyEngine.matchesAttributes rest ctxAttrs) ∧
      (∀ a : String, ABACPolicyEngine.matchesAction "*" a = true) ∧
      (∀ (rest : List (String × AttrValue)) (ctxEnv : String → Option AttrValue)
          (ip : String),
          ctxEnv "ipAddress" = some (.str ip) → ip ≠ "" →
          ABACPolicyEngine.matchesEnvironment (("ipAddress", AttrValue.str "*") :: rest)
              ctxEnv =
            ABACPolicyEngine.matchesEnvironment rest ctxEnv) ∧
      (∀ (rest : List (String × AttrValue)) (ctxEnv : String → Option AttrValue),
          ctxEnv "ipAddress" = none →
          ABACPolicyEngine.matchesEnvironment (("ipAddress", AttrValue.str "*") :: rest)
            ctxEnv = false) ∧
      (∀ (key : String) (rest : List (String × AttrValue))
          (ctxEnv : String → Option AttrValue),
          key ≠ "time" → key ≠ "ipAddress" → ctxEnv key ≠ some (.str "*") →
          ABACPolicyEngine.matchesEnvironment ((key, AttrValue.str "*") :: rest)
            ctxEnv = false) := by
  refine ⟨?_, ?_, ?_, ?_, ?_⟩
  · intro key rest ctxAttrs
    have hhead : ABACPolicyEngine.matchesAttributeEntry ctxAttrs (key, AttrValue.str "*") =
        true := by
      simp [ABACPolicyEngine.matchesAttributeEntry]
    simp only [ABACPolicyEngine.matchesAttributes, List.all_cons, hhead, Bool.true_and]
  · intro a
    rfl
  · intro rest ctxEnv ip h hne
    have hstar : jsIncludesChar "*" '*' = true := by decide
    have hhead : ABACPolicyEngine.matchesEnvironmentEntry ctxEnv
        ("ipAddress", AttrValue.str "*") = true := by
      simp [ABACPolicyEngine.matchesEnvironmentEntry, ABACPolicyEngine.matchesIPPattern, h,
        hne, hstar, compileIPPattern_star, regexTest_star]
    simp only [ABACPolicyEngine.matchesEnvironment, List.all_cons, hhead, Bool.true_and]
  · intro rest ctxEnv h
    have hhead : ABACPolicyEngine.matchesEnvironmentEntry ctxEnv
        ("ipAddress", AttrValue.str "*") = false := by
      simp [ABACPolicyEngine.matchesEnvironmentEntry, ABACPolicyEngine.matchesIPPattern, h]
    simp only [ABACPolicyEngine.matchesEnvironment, List.all_cons, hhead, Bool.false_and]
  · intro key rest ctxEnv h1 h2 h3
    have hk1 : (key == "time") = false := beq_eq_false_iff_ne.mpr h1
    have hk2 : (key == "ipAddress") = false := beq_eq_false_iff_ne.mpr h2
    have hs : jsStrictEq (.str "*") (ctxEnv key) = false := by
      cases hc : ctxEnv key with
      | none => rfl
      | some c =>
        cases c with
        | str b =>
          have hb : ("*" : String) ≠ b := fun e => h3 (by rw [hc, ← e])
          simp [jsStrictEq, beq_eq_false_iff_ne.mpr hb]
        | bool b => rfl
        | num n => rfl
        | strList vs => rfl
        | timeCond b => rfl
        | date ms => rfl
        | perms ps => rfl
    have hhead : ABACPolicyEngine.matchesEnvironmentEntry ctxEnv (key, AttrValue.str "*") =
        false := by
      simp only [ABACPolicyEngine.matchesEnvironmentEntry, hk1, hk2, Bool.false_and]
      simpa using hs
    simp only [ABACPolicyEngine.matchesEnvironment, List.all_cons, hhead, Bool.false_and]

/-- Claim C3 witness: the amended statement evaluated at concrete inputs —
the `ipAddress` wildcard passes through for a present IP, fails for an
absent one, and the `userAgent` wildcard fails against a present
"Mozilla". -/
theorem wildcardMatchingAmendedWitness :
    (ABACPolicyEngine.matchesEnvironment [("ipAddress", AttrValue.str "*")]
        (environmentAttrs ipEnvironment) =
      ABACPolicyEngine.matchesEnvironment [] (environmentAttrs ipEnvironment)) ∧
      (ABACPolicyEngine.matchesEnvironment [("ipAddress", AttrValue.str "*")]
        (environmentAttrs bareEnvironment) = false) ∧
      (ABACPolicyEngine.matchesEnvironment [("userAgent", AttrValue.str "*")]
        (environmentAttrs mozillaContext.environment) = false) :=
  ⟨wildcardMatchingAmended.2.2.1 [] (environmentAttrs ipEnvironment) "10.0.0.5"
      (by decide) (by decide),
    wildcardMatchingAmended.2.2.2.1 [] (environmentAttrs bareEnvironment) (by decide),
    wildcardMatchingAmended.2.2.2.2 "userAgent" []
      (environmentAttrs mozillaContext.environment) (by decide) (by decide) (by decide)⟩

/-! ## Claim C10 -/

/-- Claim C10 (confirmed): `checkPermission` evaluates the default policies
against a context whose environment carries `mfaVerified` defaulted to
`user.mfaEnabled` (the enrolment flag, not a TOTP verification result), and
a caller-supplied `mfaVerified` overrides that default. -/
theorem checkPermissionMfaDefault :
    ∀ (user : User) (resource : CheckResource) (action : String)
      (ipa ua : Option String) (now : Int) (v : Bool),
      ((checkPermissionContext user resource action ⟨ipa, ua, none⟩ now).environment.mfaVerified
          = some user.mfaEnabled) ∧
        ((checkPermissionContext user resource action ⟨ipa, ua, some v⟩ now).environment.mfaVerified
          = some v) ∧
        ∀ env : CheckEnvironment,
          checkPermission user resource action env now =
            ABACPolicyEngine.evaluate defaultPolicies
              (checkPermissionContext user resource action env now) := by
  intro user resource action ipa ua now v
  exact ⟨rfl, rfl, fun env => rfl⟩

/-! ## Claim C4 -/

/-- Ceiling division of a positive quantity is positive. -/
theorem jsCeilDiv_pos (a : Int) (h : 1 ≤ a) : 0 < jsCeilDiv a 1000 := by
  have h2 : (-a).fdiv 1000 < 0 := Int.fdiv_neg' (by omega) (by norm_num)
  unfold jsCeilDiv
  omega

/-- Claim C4, counterexample: a trusted IP (loopback, on the default trusted
list) that is on the dynamic blocklist is still blocked — the trusted
allowlist is consulted only by the rate limiter, not by the block check. -/
theorem blocklistTrustedCounterexample :
    (securityMiddleware defaultConfig ["127.0.0.1"] emptyRateLimitStore "127.0.0.1" 0).1 =
        .blocked ∧
      defaultConfig.trustedIPs.contains "127.0.0.1" = true := by
  constructor
  · rfl
  · decide

/-- Claim C4 as amended: under the default configuration the gate returns
`Blocked` exactly when the source IP is on the blocklist (dynamic set or
configured static list), regardless of the trusted allowlist; since the
block check runs before the rate limiter, this holds for every rate-limit
store state, so a blocklisted source is blocked even when under its
ceiling. -/
theorem blocklistPrecedence :
    ∀ (ip : String) (dyn : List String) (store : RateLimitStore) (now : Nat),
      ((securityMiddleware defaultConfig dyn store ip now).1 = .blocked ↔
        (ip ∈ dyn ∨ ip ∈ defaultConfig.blockedIPs)) := by
  intro ip dyn store now
  cases hb : dyn.contains ip with
  | true =>
    have hd : ip ∈ dyn := by simpa using hb
    have hres : securityMiddleware defaultConfig dyn store ip now = (.blocked, store) := by
      unfold securityMiddleware
      simp [defaultConfig, hd]
    rw [hres]
    simp [hd]
  | false =>
    have hd : ip ∉ dyn := by simpa using hb
    have hmem : ¬(ip ∈ dyn ∨ ip ∈ defaultConfig.blockedIPs) := by
      simp [defaultConfig, hd]
    have hne : (securityMiddleware defaultConfig dyn store ip now).1 ≠ .blocked := by
      unfold securityMiddleware
      simp only [defaultConfig, hb, List.contains_nil, Bool.or_false, Bool.and_false,
        Bool.false_eq_true, if_false]
      split
      · split <;> simp
      · simp
    simp [hne, hmem]

/-! ## Claim C5 -/

/-- One admission step for a non-blocked, non-trusted IP whose bucket
already holds `count = m` with reset time `reset`: the counter becomes
`m + 1`, `reset` is preserved, and the outcome is `admitted` or
`rateLimited` according to the ceiling. -/
theorem securityMiddleware_step (ip : String) (dyn : List String)
    (hdyn : dyn.contains ip = false)
    (htrusted : ip ≠ "127.0.0.1" ∧ ip ≠ "::1")
    (store : RateLimitStore) (t : Nat) (m reset : Nat)
    (hstore : store (ip, t / 900000) = some ⟨m, reset⟩) :
    securityMiddleware defaultConfig dyn store ip t =
      (if 100 < m + 1 then
          .rateLimited (jsCeilDiv ((reset : Int) - (t : Int)) 1000)
        else .admitted,
        store.set (ip, t / 900000) ⟨m + 1, reset⟩) := by
  have hd : ip ∉ dyn := by simpa using hdyn
  unfold securityMiddleware
  simp [defaultConfig, hd, htrusted.1, htrusted.2, hstore]
  split <;> rfl

/-- One admission step on a fresh bucket: the entry is created with count 1
and reset time `t + 900000`, and the request is admitted. -/
theorem securityMiddleware_step_fresh (ip : String) (dyn : List String)
    (hdyn : dyn.contains ip = false)
    (htrusted : ip ≠ "127.0.0.1" ∧ ip ≠ "::1")
    (store : RateLimitStore) (t : Nat)
    (hstore : store (ip, t / 900000) = none) :
    securityMiddleware defaultConfig dyn store ip t =
      (.admitted, store.set (ip, t / 900000) ⟨1, t + 900000⟩) := by
  have hd : ip ∉ dyn := by simpa using hdyn
  unfold securityMiddleware
  simp [defaultConfig, hd, htrusted.1, htrusted.2, hstore]

/-- Updating a bucket makes later reads of the same key see the new entry. -/
theorem RateLimitStore.set_same (store : RateLimitStore) (key : String × Nat)
    (entry : RateLimitEntry) : store.set key entry key = some entry := by
  simp [RateLimitStore.set]

/-- Tail of a saturating run: starting from a bucket already at `count = m`
(`m ≤ 100`) whose reset time lies at or beyond the end of window `k`, a run
of `101 - m` further requests inside window `k` yields `100 - m` admissions
followed by one `rateLimited` outcome with strictly positive retry delay. -/
theorem runAdmissions_tail (ip : String) (dyn : List String)
    (hdyn : dyn.contains ip = false)
    (htrusted : ip ≠ "127.0.0.1" ∧ ip ≠ "::1") (k : Nat) :
    ∀ (ts : List Nat) (store : RateLimitStore) (m reset : Nat),
      store (ip, k) = some ⟨m, reset⟩ →
      (∀ t ∈ ts, t / 900000 = k) →
      m + ts.length = 101 →
      m ≤ 100 →
      (k + 1) * 900000 ≤ reset →
      ∃ r : Int,
        (runAdmissions defaultConfig dyn ip ts store).1 =
          List.replicate (100 - m) .admitted ++ [.rateLimited r] ∧ 0 < r := by
  intro ts
  induction ts with
  | nil =>
    intro store m reset _ _ hlen hm _
    have hm101 : m = 101 := by simpa using hlen
    exact absurd hm101 (by omega)
  | cons t ts ih =>
    intro store m reset hstore hwin hlen hm hreset
    have hwt : t / 900000 = k := hwin t (by simp)
    have hstep := securityMiddleware_step ip dyn hdyn htrusted store t m reset
      (by rw [hwt]; exact hstore)
    by_cases hceil : 100 < m + 1
    · -- m = 100: this request is the 101st, it is rate limited
      have hm100 : m = 100 := by omega
      have hts : ts = [] := by
        have hlen2 : m + (ts.length + 1) = 101 := by simpa using hlen
        have hlen0 : ts.length = 0 := by omega
        exact List.length_eq_zero.mp hlen0
      subst hts hm100
      refine ⟨jsCeilDiv ((reset : Int) - (t : Int)) 1000, ?_, ?_⟩
      · simp only [runAdmissions, hstep, if_pos hceil]
        simp
      · apply jsCeilDiv_pos
        have h2 : t % 900000 < 900000 := Nat.mod_lt _ (by norm_num)
        have h3 : 900000 * (t / 900000) + t % 900000 = t := Nat.div_add_mod t 900000
        have ht : t < (k + 1) * 900000 := by omega
        omega
    · -- the request is admitted and the run continues
      have hm' : m + 1 ≤ 100 := by omega
      have hset : (store.set (ip, t / 900000) ⟨m + 1, reset⟩) (ip, k) =
          some ⟨m + 1, reset⟩ := by
        rw [hwt]
        exact RateLimitStore.set_same store (ip, k) ⟨m + 1, reset⟩
      obtain ⟨r, hrun, hr⟩ := ih (store.set (ip, t / 900000) ⟨m + 1, reset⟩) (m + 1) reset
        hset (fun u hu => hwin u (by simp [hu])) (by simp at hlen ⊢; omega) hm' hreset
      refine ⟨r, ?_, hr⟩
      simp only [runAdmissions, hstep, if_neg hceil]
      simp only [hrun]
      have hrep : 100 - m = (100 - (m + 1)) + 1 := by omega
      rw [hrep, List.replicate_succ]
      simp

/-- Claim C5 (confirmed): under the default configuration, a non-blocked,
non-trusted source starting a fresh 15-minute window gets exactly 100
admissions; the 101st request of the same window is `rateLimited` with a
strictly positive Retry-After (in seconds). -/
theorem rateLimiterDefaultCeiling (ip : String) (dyn : List String) (k : Nat)
    (ts : List Nat) (store : RateLimitStore)
    (hdyn : dyn.contains ip = false)
    (htrusted : ip ≠ "127.0.0.1" ∧ ip ≠ "::1")
    (hstore : store (ip, k) = none)
    (hwin : ∀ t ∈ ts, t / 900000 = k)
    (hlen : ts.length = 101) :
    ∃ r : Int,
      (runAdmissions defaultConfig dyn ip ts store).1 =
        List.replicate 100 .admitted ++ [.rateLimited r] ∧ 0 < r := by
  cases ts with
  | nil => simp at hlen
  | cons t ts =>
    have hwt : t / 900000 = k := hwin t (by simp)
    have hstep := securityMiddleware_step_fresh ip dyn hdyn htrusted store t
      (by rw [hwt]; exact hstore)
    have hset : (store.set (ip, t / 900000) ⟨1, t + 900000⟩) (ip, k) =
        some ⟨1, t + 900000⟩ := by
      rw [hwt]
      exact RateLimitStore.set_same store (ip, k) ⟨1, t + 900000⟩
    have hreset : (k + 1) * 900000 ≤ t + 900000 := by
      have h3 : 900000 * (t / 900000) + t % 900000 = t := Nat.div_add_mod t 900000
      omega
    obtain ⟨r, hrun, hr⟩ := runAdmissions_tail ip dyn hdyn htrusted k ts
      (store.set (ip, t / 900000) ⟨1, t + 900000⟩) 1 (t + 900000) hset
      (fun u hu => hwin u (by simp [hu]))
      (by have h2 : ts.length = 100 := by simpa using hlen
          omega)
      (by omega) hreset
    refine ⟨r, ?_, hr⟩
    simp only [runAdmissions, hstep]
    simp only [hrun]
    have hrep : (100 : Nat) = 99 + 1 := by norm_num
    rw [show (List.replicate 100 AdmissionOutcome.admitted) =
        AdmissionOutcome.admitted :: List.replicate 99 AdmissionOutcome.admitted from rfl]
    simp

/-- Claim C5 witness: 101 requests at millisecond timestamps `0, ..., 100`
(all inside bucket 0) from a fresh store — the outcome list is 100
admissions and one `rateLimited` with positive delay. -/
theorem rateLimiterDefaultCeilingWitness :
    ∃ r : Int,
      (runAdmissions defaultConfig [] "203.0.113.9" (List.range 101)
          emptyRateLimitStore).1 =
        List.replicate 100 .admitted ++ [.rateLimited r] ∧ 0 < r :=
  rateLimiterDefaultCeiling "203.0.113.9" [] 0 (List.range 101) emptyRateLimitStore
    (by decide) (by decide) rfl (by decide) (by decide)

/-! ## Claim C2 -/

/-- Claim C2 (code bug): the end-to-end brute-force scenario is broken in
two places. The detector's `failed_login_burst` case only matches events of
type `"failed_login"`, while the login route records failures as
`"login_failed"`, so the pattern never fires on them — whatever the event
history and clock say (first conjunct; the query for `"failed_login"`
events over that history is empty anyway, third conjunct). And even when a
`block_ip` action runs, `SecurityLogger.blockIP` only logs an `ip_blocked`
event without touching the middleware's blocklist, so a subsequent
admission check for 10.0.0.5 is `admitted`, not `blocked` (second
conjunct). -/
theorem bruteForcePipelineBroken :
    (∀ (fetchEvents : Option String → List LoggedEvent) (now : Int),
        checkPattern failedLoginBurstPattern (loginFailedEvent 510000) fetchEvents now =
          false) ∧
      ((securityMiddleware defaultConfig
          (securityLoggerBlockIP "10.0.0.5" []).1 emptyRateLimitStore "10.0.0.5"
          540000).1 = .admitted) ∧
      eventStoreFetch fiveLoginFailures (some "failed_login") = [] := by
  refine ⟨?_, by decide, by decide⟩
  intro fetchEvents now
  simp [checkPattern, failedLoginBurstPattern, securityPatterns, loginFailedEvent]

/-! ## Claim C7 -/

/-- Claim C7, counterexample: a `successful_login` whose local hour is
exactly 18 does not fire `off_hours_access` — the source tests `hour > 18`,
not `hour >= 18`. -/
theorem offHoursAt18Counterexample :
    checkPattern offHoursAccessPattern successfulLoginAt18 (eventStoreFetch [])
        66600000 = false ∧
      jsGetHours successfulLoginAt18.timestamp = 18 := by
  constructor <;> decide

/-- Claim C7 as amended: `off_hours_access` fires on a single qualifying
event — a `successful_login` whose local hour is before 8 or strictly after
18 (hour 19 and later) — for every event history and clock, so its declared
threshold and window are vacuous. -/
theorem offHoursPointDetector :
    ∀ (event : LoggedEvent) (fetchEvents : Option String → List LoggedEvent) (now : Int),
      event.event_type = "successful_login" →
      (jsGetHours event.timestamp < 8 ∨ 18 < jsGetHours event.timestamp) →
      checkPattern offHoursAccessPattern event fetchEvents now = true := by
  intro event fetchEvents now htype hhour
  simp only [checkPattern, offHoursAccessPattern, securityPatterns]
  rcases hhour with h | h <;> simp [htype, h]

/-- Claim C7 witness: a `successful_login` at hour 19 fires the pattern
against an empty history. -/
theorem offHoursPointDetectorWitness :
    checkPattern offHoursAccessPattern successfulLoginAt19 (eventStoreFetch []) 0 = true :=
  offHoursPointDetector successfulLoginAt19 (eventStoreFetch []) 0 (by decide) (by decide)

/-! ## Claims C6 and C9 -/

/-- Generation depends only on the 30-second step for nonzero timestamps
(a zero timestamp is falsy and falls back to the current time). -/
theorem generateTOTP_congr (secret : String) (t1 t2 now : Int)
    (h1 : t1 ≠ 0) (h2 : t2 ≠ 0) (hstep : t1.fdiv 30000 = t2.fdiv 30000) :
    generateTOTP secret t1 now = generateTOTP secret t2 now := by
  unfold generateTOTP
  rw [if_neg h1, if_neg h2, hstep]

set_option maxRecDepth 100000
set_option maxHeartbeats 2000000

/-- Claim C6, counterexample: with the verification time 29 seconds into
its step, a code generated 31 seconds later lands two steps ahead and is
rejected even at tolerance 1, against the claim's "accepted at
tolerance 1". -/
theorem totpTolerance1Counterexample :
    verifyTOTP totpSecret (generateTOTP totpSecret (29000 + 31000) 29000) 1 29000 =
      false := by
  decide

/-- Claim C6 as amended: verifying the code generated at the verification
time always succeeds at tolerance 0; and a code generated 31 seconds after
a verification time that sits less than 29 seconds into its 30-second step
lands exactly one step ahead, so — whenever the next step's code differs
from the current one — it is rejected at tolerance 0 and accepted at
tolerance 1. -/
theorem totpRoundTripAmended :
    (∀ (secret : String) (t : Int),
        verifyTOTP secret (generateTOTP secret t t) 0 t = true) ∧
      ∀ (secret : String) (t : Int),
        0 ≤ t → t % 30000 < 29000 →
        generateTOTP secret (t + 31000) t ≠ generateTOTP secret t t →
        verifyTOTP secret (generateTOTP secret (t + 31000) t) 0 t = false ∧
          verifyTOTP secret (generateTOTP secret (t + 31000) t) 1 t = true := by
  constructor
  · intro secret t
    simp [verifyTOTP]
  · intro secret t ht hmod hne
    have hstep : (t + 30000).fdiv 30000 = (t + 31000).fdiv 30000 := by
      rw [Int.fdiv_eq_ediv _ (by norm_num), Int.fdiv_eq_ediv _ (by norm_num)]
      omega
    have heq : generateTOTP secret (t + 30000) t = generateTOTP secret (t + 31000) t :=
      generateTOTP_congr secret _ _ t (by omega) (by omega) hstep
    constructor
    · simp [verifyTOTP, beq_eq_false_iff_ne]
      exact fun e => hne e.symm
    · unfold verifyTOTP
      rw [List.any_eq_true]
      refine ⟨2, by decide, ?_⟩
      have harg : t + (((2 : Nat) : Int) - ((1 : Nat) : Int)) * 30000 = t + 30000 := by
        push_cast
        ring
      simp only [harg, heq, beq_self_eq_true]

/-- Claim C6 witness: the amended statement at the concrete secret and
verification time 0 — the round trip holds, and the code generated at
31 seconds is rejected at tolerance 0 and accepted at tolerance 1. -/
theorem totpRoundTripAmendedWitness :
    verifyTOTP totpSecret (generateTOTP totpSecret 0 0) 0 0 = true ∧
      verifyTOTP totpSecret (generateTOTP totpSecret (0 + 31000) 0) 0 0 = false ∧
        verifyTOTP totpSecret (generateTOTP totpSecret (0 + 31000) 0) 1 0 = true :=
  ⟨totpRoundTripAmended.1 totpSecret 0,
    (totpRoundTripAmended.2 totpSecret 0 (by decide) (by decide) (by decide)).1,
    (totpRoundTripAmended.2 totpSecret 0 (by decide) (by decide) (by decide)).2⟩

/-- Claim C9, counterexample: the timestamps 0 and 5000 lie in the same
30-second step, yet the generated codes differ, because `timestamp ||
Date.now()` treats the falsy timestamp 0 as absent and generates for the
current time (here inside step 3) instead. -/
theorem totpZeroTimestampCounterexample :
    (0 : Int).fdiv 30000 = (5000 : Int).fdiv 30000 ∧
      generateTOTP totpSecret 0 90000 ≠ generateTOTP totpSecret 5000 90000 := by
  constructor
  · decide
  · decide

/-- Claim C9 as amended: for nonzero timestamps, `generateTOTP` is a
function of the secret and the 30-second step `floor(t / 30000)`: two
nonzero timestamps in the same step produce identical codes (at timestamp
0 the source falls back to the current time instead). -/
theorem totpDeterminismAmended :
    ∀ (secret : String) (t1 t2 now : Int),
      t1 ≠ 0 → t2 ≠ 0 → t1.fdiv 30000 = t2.fdiv 30000 →
      generateTOTP secret t1 now = generateTOTP secret t2 now := by
  intro secret t1 t2 now h1 h2 hstep
  exact generateTOTP_congr secret t1 t2 now h1 h2 hstep

/-- Claim C9 witness: the amended statement at two concrete timestamps of
step 1. -/
theorem totpDeterminismAmendedWitness :
    generateTOTP totpSecret 31000 0 = generateTOTP totpSecret 45000 0 :=
  totpDeterminismAmended totpSecret 31000 45000 0 (by decide) (by decide) (by decide)
